import Mathlib

/-!
Verification of the rss-notification repository core:
the content relevance scorer (`src/services/common/advancedContentFilter.js`),
the daily deduplication cache (`src/services/common/dailyCache.js`),
the per-source scheduler (`BaseScheduler` / `KofeArticleScheduler`), the article
service (`src/services/common/baseArticleService.js`) and the batch executor
(`BatchProcessor` / `OnceExecutor` in `index.js`).

JavaScript string and regex behaviour is embedded over `List Char` / `String`;
JS numbers are embedded as `ℚ` (all weights in the scorer are small decimal
constants), fallible code returns `Except`, and the async scheduler is embedded
as a step relation over an explicit state.
-/

namespace RssNotif

/-! ## JS string semantics helpers -/

/-- `containsSeg needle hay` is true iff `needle` occurs as a contiguous
segment of `hay`. -/
def containsSeg (needle : List Char) : List Char → Bool
  | [] => needle.isEmpty
  | c :: rest => needle.isPrefixOf (c :: rest) || containsSeg needle rest

/-- JS `hay.includes(needle)`. -/
def jsIncludes (hay needle : String) : Bool :=
  containsSeg needle.toList hay.toList

/-- JS `(x || '')`: `undefined` (`none`) and the empty string are falsy. -/
def jsOrEmpty (x : Option String) : String :=
  match x with
  | none => ""
  | some s => s

/-- JS `a || b` on an optional string `a` (both `undefined` and `""` are falsy). -/
def jsOrElse (a : Option String) (b : String) : String :=
  match a with
  | none => b
  | some s => if s = "" then b else s

/-- JS `String.prototype.toLowerCase` restricted to ASCII letters (all keyword
tables and concrete inputs in this development are ASCII or Korean, where the
two coincide). -/
def jsToLower (s : String) : String :=
  ⟨s.toList.map Char.toLower⟩

/-- Match the regex fragment `.*b` against `s`: consume any number of
non-newline characters, then the literal `b` (JS `.` does not match `\n`). -/
def matchGapThen (b : List Char) : List Char → Bool
  | [] => b.isEmpty
  | c :: rest => b.isPrefixOf (c :: rest) || (c ≠ '\n' && matchGapThen b rest)

/-- JS `/a.*b/.test(s)` for literal fragments `a`, `b`: some occurrence of `a`
is followed by `b` with only non-newline characters in between. -/
def matchDotStar (a b : List Char) : List Char → Bool
  | [] => a.isEmpty && matchGapThen b []
  | c :: rest =>
    (a.isPrefixOf (c :: rest) && matchGapThen b ((c :: rest).drop a.length)) ||
    matchDotStar a b rest

/-- Test one `/A.*B/i` pattern (given as the pair of literal fragments) against
a text.  All patterns in the filter are lower-case or Korean, and every text
they are applied to has already been lower-cased, so the `i` flag is inert. -/
def jsRegexTest (p : String × String) (text : String) : Bool :=
  matchDotStar p.1.toList p.2.toList text.toList

example : jsIncludes "backend only conference" "conference" = true := by decide
example : jsRegexTest ("backend", "only") "the backend is only here" = true := by decide
example : jsRegexTest ("backend", "only") "only the backend" = false := by decide
example : jsRegexTest ("backend", "only") "backend\nonly" = false := by decide
example : jsIncludes "docker" "event" = false := by decide

/-! ## AdvancedContentFilter: static keyword and pattern tables
Transcribed from the constructor of
`src/services/common/advancedContentFilter.js`. -/

namespace Filter

def projectTechPrimary : List String :=
  ["typescript", "react", "tailwind css", "tailwindcss", "vite",
   "radix ui", "storybook", "pnpm", "zustand", "tanstack",
   "react query", "tanstack query", "tanstack router", "tanstack table",
   "apache echarts", "eslint", "stylelint", "prettier", "playwright",
   "feature sliced design", "fsd", "headless ui"]

def projectTechSecondary : List String :=
  ["react ecosystem", "typescript config", "vite config", "tailwind config",
   "headless components", "radix primitives", "component library",
   "state management", "data fetching", "react hooks", "custom hooks",
   "react patterns", "typescript patterns", "frontend architecture",
   "cursor ai", "claude code", "github copilot", "ai assistant",
   "ai development", "ai coding", "coding assistant", "ai tools",
   "claude api integration", "openai integration", "llm integration"]

def webFrontendHigh : List String :=
  ["javascript", "typescript", "react", "html5", "css3",
   "frontend development", "web development", "single page application", "spa",
   "component architecture", "react components", "hooks", "jsx", "tsx",
   "dom manipulation", "web api", "browser api", "fetch api",
   "es6", "es2015", "es2020", "modern javascript",
   "web standards", "web components", "custom elements"]

def webFrontendMedium : List String :=
  ["frontend", "front-end", "web app", "web application",
   "responsive design", "mobile first", "css grid", "flexbox",
   "web performance", "core web vitals", "lighthouse",
   "accessibility", "a11y", "semantic html", "aria",
   "progressive enhancement", "graceful degradation",
   "cross browser", "polyfill", "transpilation"]

def webFrontendLow : List String :=
  ["ui", "user interface", "user experience", "design system",
   "design tokens", "css preprocessor", "css modules",
   "web design", "interaction design", "animation",
   "transition", "transform", "svg", "canvas"]

def aiFrontendHigh : List String :=
  ["ai frontend", "frontend ai", "machine learning frontend",
   "ai ui", "ai user interface", "chatbot ui", "conversational ui",
   "ai dashboard", "ml dashboard", "data visualization",
   "ai components", "smart components", "intelligent ui",
   "ai/ml frontend", "frontend for ai", "ai web app",
   "openai", "claude", "anthropic", "chatgpt", "gpt-4", "gpt-3",
   "claude api", "openai api", "anthropic api",
   "cursor ai", "cursor editor", "claude code", "copilot",
   "github copilot", "ai assistant", "coding assistant",
   "ai development", "ai programming", "llm integration"]

def aiFrontendMedium : List String :=
  ["tensorflow.js", "ml5.js", "webgl", "webgpu", "wasm",
   "ai integration", "api integration", "real-time ai",
   "streaming ai", "ai chat", "ai visualization",
   "neural network visualization", "model visualization",
   "ai coding", "ai powered", "machine learning", "deep learning",
   "neural network", "transformer", "llm", "large language model",
   "generative ai", "artificial intelligence", "ai model",
   "ai tools", "ai workflow", "ai development tools"]

def buildToolsPreferred : List String := ["vite", "esbuild", "swc"]
def buildToolsCommon : List String := ["webpack", "rollup", "parcel", "turbopack"]
def buildToolsLegacy : List String := ["grunt", "gulp"]

def packageManagersPreferred : List String := ["pnpm"]
def packageManagersCommon : List String := ["npm", "yarn"]
def packageManagersLegacy : List String := ["bower"]

/-- The 52 strong exclusion regexes, each of the shape `/A.*B/i`, given as the
pair of literal fragments around the single `.*`. -/
def exclusionPatterns : List (String × String) :=
  [("모바일", "앱"), ("핸드폰", "기능"), ("스마트폰", "설정"), ("안드로이드", "개발"),
   ("ios", "개발"), ("아이폰", "기능"), ("갤럭시", "기능"), ("mobile", "app"),
   ("android", "development"), ("ios", "development"), ("swift", "development"),
   ("kotlin", "android"), ("react", "native"), ("flutter", "mobile"),
   ("게임", "개발"), ("게임", "엔진"), ("unity", "개발"), ("unreal", "engine"),
   ("게임", "디자인"), ("game", "development"), ("game", "engine"),
   ("console", "game"), ("mobile", "game"),
   ("하드웨어", "설계"), ("칩셋", "성능"), ("배터리", "기술"), ("프로세서", "성능"),
   ("그래픽", "카드"), ("메모리", "용량"), ("storage", "technology"),
   ("embedded", "system"), ("iot", "hardware"), ("sensor", "technology"),
   ("기업", "소식"), ("회사", "뉴스"), ("투자", "소식"), ("주가", "변동"),
   ("경영", "전략"), ("마케팅", "캠페인"), ("비즈니스", "모델"),
   ("업계", "동향"), ("시장", "분석"), ("경쟁사", "분석"),
   ("제품", "출시"), ("제품", "리뷰"), ("브랜드", "전략"),
   ("카메라", "성능"), ("디스플레이", "품질"), ("음향", "품질"),
   ("사용", "후기"), ("구매", "가이드"), ("가격", "비교")]

def discouragedFrameworks : List String := ["vue.js", "vue", "angular", "svelte"]
def discouragedStateManagement : List String := ["recoil", "redux", "mobx"]
def discouragedStyling : List String := ["styled-components", "emotion", "css-in-js"]
def discouragedBundlers : List String := ["webpack"]
def discouragedPackageManagers : List String := ["yarn", "npm"]

/-- Backend-only marker patterns used by the lenient gates (shape `/A.*B/i`). -/
def backendOnlyPatterns : List (String × String) :=
  [("backend", "only"), ("서버", "only"), ("database", "only"),
   ("infrastructure", "only"), ("devops", "only"),
   ("순수", "백엔드"), ("백엔드", "전용")]

def eventKeywords : List String :=
  ["컨퍼런스", "밋업", "conference", "meetup", "이벤트", "event", "세미나", "워크샵",
   "deview", "if(kakao)", "if kakao", "ndc", "카카오", "네이버", "개발자"]

def devKeywords : List String :=
  ["개발", "코드", "프로그래밍", "시스템", "아키텍처", "서비스", "플랫폼", "기술", "도구",
   "dev", "tech", "code", "system", "architecture", "microservice", "api", "database",
   "docker", "kubernetes", "kafka", "graphql", "rest", "ci/cd", "devops", "cloud",
   "service", "application", "framework", "library", "tool", "development"]

/-- Tech keywords of the extra lenient bump in `isRelevantContent`. -/
def techKeywordsMain : List String := ["database", "데이터베이스", "api"]

/-- Tech keywords of the extra lenient bump in `getDetailedFilterResult`
(a longer list than the one in `isRelevantContent`). -/
def techKeywordsDetailed : List String :=
  ["database", "데이터베이스", "api", "article", "커뮤니티", "community"]

def technicalIndicators : List String :=
  ["development", "coding", "programming", "implementation",
   "refactoring", "optimization", "debugging", "testing",
   "개발", "구현", "최적화", "리팩토링", "테스트",
   "tutorial", "guide", "how to", "best practices", "tips",
   "튜토리얼", "가이드", "방법", "팁", "예제",
   "architecture", "pattern", "design", "performance",
   "scalability", "maintainability", "reliability",
   "아키텍처", "패턴", "설계", "성능", "확장성",
   "conference", "meetup", "workshop", "seminar", "session",
   "summit", "forum", "community", "event", "presentation",
   "컨퍼런스", "밋업", "워크샵", "세미나", "세션",
   "서밋", "포럼", "커뮤니티", "이벤트", "발표",
   "deview", "if kakao", "ndc", "pycon", "jsconf",
   "spring camp", "awskrug", "카카오", "네이버", "라인",
   "우아콘", "인프콘", "devfest", "모임", "개발자"]

end Filter

/-! ## AdvancedContentFilter: scoring functions -/

/-- Per-source configuration of the filter: only the lenient flag matters to
the scoring logic (`this.isLenientSource`). -/
structure FilterConfig where
  isLenientSource : Bool
deriving DecidableEq, Repr

/-- A raw RSS article as seen by the filter: any of the text fields may be
`undefined` (`none`). -/
structure Article where
  title : Option String := none
  contentEncoded : Option String := none
  summary : Option String := none
  content : Option String := none
  description : Option String := none
deriving DecidableEq, Repr

inductive Decision
  | EXCLUDED
  | PASS
  | REJECT
deriving DecidableEq, Repr

/-- `hasExclusionContent(title, content)`. -/
def hasExclusionContent (title content : String) : Bool :=
  Filter.exclusionPatterns.any (fun p => jsRegexTest p (title ++ " " ++ content))

/-- The lenient backend-only test `backendOnlyPatterns.some(p => p.test(title + ' ' + content))`. -/
def hasBackendOnlyContent (title content : String) : Bool :=
  Filter.backendOnlyPatterns.any (fun p => jsRegexTest p (title ++ " " ++ content))

/-- `eventKeywords.some(k => fullText.toLowerCase().includes(k.toLowerCase()))`. -/
def hasEventKeyword (fullText : String) : Bool :=
  Filter.eventKeywords.any (fun k => jsIncludes (jsToLower fullText) (jsToLower k))

/-- `keywords.some(k => text.includes(k))`. -/
def hasAnyKeyword (text : String) (ks : List String) : Bool :=
  ks.any (fun k => jsIncludes text k)

/-- One `forEach` accumulation pass of the title/content weighted scorers:
`if (title.includes(k)) score += w * titleWeight; else if (content.includes(k)) score += w * contentWeight;`. -/
def keywordGroupScore (title content : String) (w tw cw : ℚ)
    (ks : List String) (acc : ℚ) : ℚ :=
  ks.foldl
    (fun score k =>
      if jsIncludes title k then score + w * tw
      else if jsIncludes content k then score + w * cw
      else score)
    acc

/-- One `forEach` accumulation pass over the full text with a flat weight. -/
def fullTextGroupScore (fullText : String) (w : ℚ) (ks : List String) (acc : ℚ) : ℚ :=
  ks.foldl (fun score k => if jsIncludes fullText k then score + w else score) acc

/-- `getProjectTechScore` (title weight 3, content weight 1, capped via `min(score/4, 1)`). -/
def getProjectTechScore (title content : String) : ℚ :=
  let score := keywordGroupScore title content 1.5 3 1 Filter.projectTechSecondary
    (keywordGroupScore title content 2.0 3 1 Filter.projectTechPrimary 0)
  min (score / 4) 1.0

/-- `getFrontendTechScore` (title weight 2, content weight 1, capped via `min(score/3, 1)`). -/
def getFrontendTechScore (title content : String) : ℚ :=
  let score := keywordGroupScore title content 0.4 2 1 Filter.webFrontendLow
    (keywordGroupScore title content 0.7 2 1 Filter.webFrontendMedium
      (keywordGroupScore title content 1.0 2 1 Filter.webFrontendHigh 0))
  min (score / 3) 1.0

/-- `getAiFrontendScore` (title weight 2, content weight 1, capped via `min(score/2, 1)`). -/
def getAiFrontendScore (title content : String) : ℚ :=
  let score := keywordGroupScore title content 0.6 2 1 Filter.aiFrontendMedium
    (keywordGroupScore title content 1.0 2 1 Filter.aiFrontendHigh 0)
  min (score / 2) 1.0

/-- `getTechnicalContextScore`: 0.15 per technical indicator in the full text,
plus 0.5 when the content carries code markers, capped at 1. -/
def getTechnicalContextScore (title content : String) : ℚ :=
  let fullText := title ++ " " ++ content
  let score := fullTextGroupScore fullText 0.15 Filter.technicalIndicators 0
  let score :=
    if jsIncludes content "\x60\x60\x60" || jsIncludes content "<code>" ||
        jsIncludes content "function" || jsIncludes content "const" ||
        jsIncludes content "import" || jsIncludes content "export" then
      score + 0.5
    else score
  min score 1.0

/-- `getToolsScore` over the full text, capped at 1. -/
def getToolsScore (title content : String) : ℚ :=
  let fullText := title ++ " " ++ content
  let score := fullTextGroupScore fullText 0.3 Filter.packageManagersCommon
    (fullTextGroupScore fullText 0.4 Filter.buildToolsCommon
      (fullTextGroupScore fullText 0.6 Filter.packageManagersPreferred
        (fullTextGroupScore fullText 0.8 Filter.buildToolsPreferred 0)))
  min score 1.0

/-- One `forEach` penalty pass over the full text. -/
def fullTextGroupPenalty (fullText : String) (w : ℚ) (ks : List String) (acc : ℚ) : ℚ :=
  ks.foldl (fun p k => if jsIncludes fullText k then p - w else p) acc

/-- `getDiscouragementPenalty` (note: `discouragedTech.packageManagers` is
declared in the constructor but never used here). -/
def getDiscouragementPenalty (title content : String) : ℚ :=
  let fullText := title ++ " " ++ content
  fullTextGroupPenalty fullText 0.1 Filter.discouragedBundlers
    (fullTextGroupPenalty fullText 0.2 Filter.discouragedStyling
      (fullTextGroupPenalty fullText 0.2 Filter.discouragedStateManagement
        (fullTextGroupPenalty fullText 0.3 Filter.discouragedFrameworks 0)))

/-! ## AdvancedContentFilter: the two relevance entry points -/

/-- The observable outcome of one `isRelevantContent` call: the returned
boolean, the decision it logs on the exit it takes, and the score value at
that exit. -/
structure RelevanceResult where
  relevant : Bool
  decision : Decision
  score : ℚ
deriving DecidableEq, Repr

/-- `(article.title || '').toLowerCase()`. -/
def filterTitle (a : Article) : String :=
  jsToLower (jsOrEmpty a.title)

/-- `(article.contentEncoded || article.summary || article.content || '').toLowerCase()`
as computed by `isRelevantContent`. -/
def mainContent (a : Article) : String :=
  jsToLower (jsOrElse a.contentEncoded (jsOrElse a.summary (jsOrElse a.content "")))

/-- The content fallback chain of `getDetailedFilterResult`, which additionally
tries `article.description`. -/
def detailedContent (a : Article) : String :=
  jsToLower (jsOrElse a.contentEncoded (jsOrElse a.summary
    (jsOrElse a.content (jsOrElse a.description ""))))

/-- `AdvancedContentFilter.isRelevantContent(article)`.

`totalScore` is declared with `const` (line 173) yet the two lenient bump
branches assign to it (lines 222 and 229); reaching either assignment raises a
`TypeError` at runtime, embedded here as `Except.error ()`. -/
def isRelevantContentFull (cfg : FilterConfig) (a : Article) :
    Except Unit RelevanceResult :=
  let title := filterTitle a
  let content := mainContent a
  if hasExclusionContent title content then
    .ok ⟨false, .EXCLUDED, 0⟩
  else
    let projectScore := getProjectTechScore title content
    let frontendScore := getFrontendTechScore title content
    let aiScore := getAiFrontendScore title content
    let contextScore := getTechnicalContextScore title content
    let toolsScore := getToolsScore title content
    let penaltyScore := getDiscouragementPenalty title content
    let totalScore := max 0
      (projectScore * 0.40 + frontendScore * 0.30 + aiScore * 0.20 +
       contextScore * 0.15 + toolsScore * 0.10 + penaltyScore)
    if cfg.isLenientSource then
      if hasBackendOnlyContent title content then
        .ok ⟨false, .EXCLUDED, totalScore⟩
      else if hasEventKeyword (title ++ " " ++ content) then
        .ok ⟨true, .PASS, max totalScore 0.5⟩
      else if hasAnyKeyword (title ++ " " ++ content) Filter.devKeywords &&
          decide (totalScore < 0.1) then
        .error ()
      else if hasAnyKeyword (title ++ " " ++ content) Filter.techKeywordsMain &&
          decide (totalScore < 0.1) then
        .error ()
      else
        .ok ⟨decide (0.05 ≤ totalScore),
             if 0.05 ≤ totalScore then .PASS else .REJECT, totalScore⟩
    else
      .ok ⟨decide (0.25 ≤ totalScore),
           if 0.25 ≤ totalScore then .PASS else .REJECT, totalScore⟩

/-- The boolean actually returned by `isRelevantContent`. -/
def isRelevantContent (cfg : FilterConfig) (a : Article) : Except Unit Bool :=
  (isRelevantContentFull cfg a).map RelevanceResult.relevant

/-- The `details` field of a `getDetailedFilterResult` return value: either a
plain message string or the per-category breakdown object. -/
inductive FilterDetails
  | msg (s : String)
  | breakdown (project frontend ai context tools penalty : ℚ)
      (autoApproved : Option String)
deriving DecidableEq, Repr

/-- A `getDetailedFilterResult` return value (the `decision` field is present
only on the explicit-exclusion branch). -/
structure DetailedResult where
  isRelevant : Bool
  score : ℚ
  decision : Option Decision
  details : FilterDetails
deriving DecidableEq, Repr

/-- `AdvancedContentFilter.getDetailedFilterResult(article)`.  Unlike
`isRelevantContent` its content fallback chain also tries
`article.description`, its lenient gates test the event keywords before the
backend-only patterns, its bump uses the longer tech-keyword list, its
`totalScore` is a `let` (so the bumps do not throw), and the weighted sum is
not floored at 0.  `processArticle` copies `isRelevant` and `score` from this
result verbatim. -/
def getDetailedFilterResult (cfg : FilterConfig) (a : Article) : DetailedResult :=
  let title := filterTitle a
  let content := detailedContent a
  if hasExclusionContent title content then
    ⟨false, 0, some .EXCLUDED, .msg "Explicit exclusion pattern matched"⟩
  else if cfg.isLenientSource && hasEventKeyword (title ++ " " ++ content) then
    ⟨true, 0.8, none, .breakdown 0 0 0 0.8 0 0 (some "Conference/meetup content")⟩
  else if cfg.isLenientSource && hasBackendOnlyContent title content then
    ⟨false, 0, none, .msg "Backend-only content for lenient source"⟩
  else
    let projectScore := getProjectTechScore title content
    let frontendScore := getFrontendTechScore title content
    let aiScore := getAiFrontendScore title content
    let contextScore := getTechnicalContextScore title content
    let toolsScore := getToolsScore title content
    let penaltyScore := getDiscouragementPenalty title content
    let totalScore :=
      projectScore * 0.40 + frontendScore * 0.30 + aiScore * 0.20 +
      contextScore * 0.15 + toolsScore * 0.10 + penaltyScore
    let threshold : ℚ := if cfg.isLenientSource then 0.05 else 0.25
    let fullText := title ++ " " ++ content
    let totalScore :=
      if cfg.isLenientSource && hasAnyKeyword fullText Filter.devKeywords &&
          decide (totalScore < 0.1) then
        max totalScore 0.1
      else totalScore
    let totalScore :=
      if cfg.isLenientSource && hasAnyKeyword fullText Filter.techKeywordsDetailed &&
          decide (totalScore < 0.1) then
        max totalScore 0.1
      else totalScore
    ⟨decide (threshold ≤ totalScore), totalScore, none,
     .breakdown projectScore frontendScore aiScore contextScore toolsScore
       penaltyScore none⟩

/-! ## DailyCache (`src/services/common/dailyCache.js`)

The cache state is the `dailyCache` Map (calendar-day key to the Set of sent
identifiers), embedded as an association list whose buckets are
insertion-ordered duplicate-free lists.  The current day key (produced by
`getTodayKey` from the wall clock) is passed explicitly.  File writes
(`saveToFile` invocations) are returned as a count so that "no write occurs"
is observable. -/

inductive CacheMode
  | bypass
  | memory
  | file
deriving DecidableEq, Repr

structure DailyCache where
  cacheMode : CacheMode
  dailyCache : List (String × List String)
deriving DecidableEq, Repr

/-- `Map.prototype.get` on the association list. -/
def mapGet : List (String × List String) → String → Option (List String)
  | [], _ => none
  | (k, v) :: rest, key => if k = key then some v else mapGet rest key

/-- `Map.prototype.set` on the association list. -/
def mapSet : List (String × List String) → String → List String → List (String × List String)
  | [], key, v => [(key, v)]
  | (k, w) :: rest, key, v =>
    if k = key then (k, v) :: rest else (k, w) :: mapSet rest key v

/-- `Set.prototype.has`. -/
def setHas (s : List String) (x : String) : Bool :=
  s.contains x

/-- `Set.prototype.add` (no-op when already present, else appended). -/
def setAdd (s : List String) (x : String) : List String :=
  if setHas s x then s else s ++ [x]

/-- `DailyCache.getTodayCache`: today's bucket, created lazily. -/
def getTodayCache (c : DailyCache) (today : String) : List String × DailyCache :=
  match mapGet c.dailyCache today with
  | some s => (s, c)
  | none => ([], { c with dailyCache := mapSet c.dailyCache today [] })

/-- `DailyCache.hasSent(postId, bypassCache)`. -/
def hasSent (c : DailyCache) (today : String) (postId : String)
    (bypassCache : Bool) : Bool × DailyCache :=
  if c.cacheMode = .bypass || bypassCache then (false, c)
  else
    let sc := getTodayCache c today
    (setHas sc.1 postId, sc.2)

/-- `DailyCache.markAsSent(postId, bypassCache)`; the returned `Nat` counts
file writes performed by `saveToFile`. -/
def markAsSent (c : DailyCache) (today : String) (postId : String)
    (bypassCache : Bool) : DailyCache × Nat :=
  if c.cacheMode = .bypass || (bypassCache && !(c.cacheMode = .file)) then (c, 0)
  else
    let sc := getTodayCache c today
    let c' := { sc.2 with dailyCache := mapSet sc.2.dailyCache today (setAdd sc.1 postId) }
    (c', if c.cacheMode = .file then 1 else 0)

/-- `DailyCache.filterNewPosts(posts, getPostId, bypassCache, markAsProcessed)`:
returns the kept posts, the new cache state, and the number of file writes. -/
def filterNewPosts {α : Type} (c : DailyCache) (today : String) (posts : List α)
    (getPostId : α → String) (bypassCache markAsProcessed : Bool) :
    List α × DailyCache × Nat :=
  if c.cacheMode = .bypass || (bypassCache && !(c.cacheMode = .file)) then
    (posts, c, 0)
  else
    let sc := getTodayCache c today
    let newPosts := posts.filter (fun p => !setHas sc.1 (getPostId p))
    if markAsProcessed && newPosts.length > 0 then
      let updated := newPosts.foldl (fun s p => setAdd s (getPostId p)) sc.1
      let c' := { sc.2 with dailyCache := mapSet sc.2.dailyCache today updated }
      (newPosts, c', if c.cacheMode = .file then 1 else 0)
    else (newPosts, sc.2, 0)

/-- `DailyCache.markMultipleAsSent(posts, getPostId)`: note it checks neither
the bypass mode nor the legacy flag, and never calls `saveToFile`. -/
def markMultipleAsSent {α : Type} (c : DailyCache) (today : String)
    (posts : List α) (getPostId : α → String) : DailyCache :=
  let sc := getTodayCache c today
  let updated := posts.foldl (fun s p => setAdd s (getPostId p)) sc.1
  { sc.2 with dailyCache := mapSet sc.2.dailyCache today updated }

/-! ## KofeArticleScheduler.executeArticleCheck
(`src/services/kofeArticle/scheduler.js`)

Delivery (`messenger.sendArticle`) is a network call whose outcome is
abstracted by a `deliverOk` predicate; a `false` outcome is the thrown
rejection that the per-item `catch` turns into `failCount++`. -/

/-- A normalized article as consumed by the per-source scheduler. -/
structure Post where
  url : String
deriving DecidableEq, Repr

/-- The result object of one `executeArticleCheck` run. -/
structure RunOutcome where
  success : Bool
  articlesFound : Nat
  messagesSent : Nat
  failed : Nat
deriving DecidableEq, Repr

/-- The delivery loop of `executeArticleCheck`: state is
`(successCount, failCount, cache, fileWrites)`. -/
def deliveryLoop (today : String) (bypassCache : Bool) (deliverOk : Post → Bool) :
    List Post → Nat × Nat × DailyCache × Nat → Nat × Nat × DailyCache × Nat
  | [], st => st
  | a :: rest, (succ, fail, cache, writes) =>
    if deliverOk a then
      let mw := markAsSent cache today a.url bypassCache
      deliveryLoop today bypassCache deliverOk rest (succ + 1, fail, mw.1, writes + mw.2)
    else
      deliveryLoop today bypassCache deliverOk rest (succ, fail + 1, cache, writes)

/-- `KofeArticleScheduler.executeArticleCheck(triggerType)` given the fetched
article list: dedup via `filterNewPosts` (which marks every kept article,
`markAsProcessed` defaulting to true), then deliver each new article, marking
it again via `markAsSent` on success only.  Returns the run result, the final
cache state and the file-write count. -/
def executeArticleCheck (cache : DailyCache) (today : String) (bypassCache : Bool)
    (articles : List Post) (deliverOk : Post → Bool) :
    RunOutcome × DailyCache × Nat :=
  if articles.length = 0 then (⟨true, 0, 0, 0⟩, cache, 0)
  else
    let fr := filterNewPosts cache today articles (fun a => a.url) bypassCache true
    if fr.1.length = 0 then (⟨true, articles.length, 0, 0⟩, fr.2.1, fr.2.2)
    else
      let loopEnd := deliveryLoop today bypassCache deliverOk fr.1 (0, 0, fr.2.1, fr.2.2)
      (⟨true, articles.length, loopEnd.1, loopEnd.2.1⟩, loopEnd.2.2.1, loopEnd.2.2.2)

/-! ## BaseArticleService.getRecentArticles
(`src/services/common/baseArticleService.js`)

`parseFeed` is the network fetch: its outcome is the `Except` argument.  The
`catch` block of `getRecentArticles` turns any fetch error into an empty
list.  Feed items carry their publication timestamp; `normalizeArticle` is
abstracted into the `post` component of a feed item. -/

structure FeedItem where
  post : Post
  pubDate : Int
deriving DecidableEq, Repr

/-- `BaseArticleService.getRecentArticles()`: on fetch failure the error is
caught, logged and an empty list returned; on success the items dated today
(at or after local midnight `todayStart`) are kept and normalized. -/
def getRecentArticles (fetch : Except String (List FeedItem))
    (todayStart : Int) : List Post :=
  match fetch with
  | .error _ => []
  | .ok items => (items.filter (fun it => todayStart ≤ it.pubDate)).map (fun it => it.post)

/-! ## BatchProcessor / OnceExecutor (`index.js`)

`Promise.allSettled` semantics: each per-service invocation settles either
`fulfilled` with `executeService`'s return object or `rejected` (only the
timeout race rejects, since `executeService` catches everything else). -/

inductive SettledResult (α : Type)
  | fulfilled (value : α)
  | rejected (reason : String)
deriving DecidableEq, Repr

/-- The object returned by `OnceExecutor.executeService`. -/
structure ExecOutcome where
  success : Bool
  service : String
  result : Option RunOutcome
  error : Option String
deriving DecidableEq, Repr

/-- Abstract behaviour of one service's `runManualCheck` under the per-source
timeout: it resolves with a run result, rejects with an error (caught by
`executeService`), or exceeds the timeout (the race rejects). -/
inductive ServiceBehavior
  | ok (r : RunOutcome)
  | throws (e : String)
  | timesOut
deriving DecidableEq, Repr

structure Service where
  name : String
  behavior : ServiceBehavior
deriving DecidableEq, Repr

/-- The rejection message of `BatchProcessor.#executeWithTimeout` for
`timeoutMs = 30000`. -/
def timeoutMessage : String := "실행 시간 초과 (30000ms)"

/-- `OnceExecutor.executeService(service)` composed with the timeout wrapper:
a successful run fulfills with `success: true`; an error thrown anywhere in
the run is caught and fulfills with `success: false` and the service's name;
a timeout rejects the settled promise. -/
def executeService (s : Service) : SettledResult ExecOutcome :=
  match s.behavior with
  | .ok r => .fulfilled ⟨true, s.name, some r, none⟩
  | .throws e => .fulfilled ⟨false, s.name, none, some e⟩
  | .timesOut => .rejected timeoutMessage

/-- Partition a list into consecutive batches of `n` (the `for` loop of
`processInBatches`; `n = 0` would loop forever in JS, here it degenerates to
a single batch). -/
def chunks {α : Type} (n : Nat) (l : List α) : List (List α) :=
  if h : l.isEmpty then []
  else if hn : n = 0 then [l]
  else l.take n :: chunks n (l.drop n)
termination_by l.length
decreasing_by
  rw [List.length_drop]
  apply Nat.sub_lt _ (Nat.pos_of_ne_zero hn)
  cases l with
  | nil => simp at h
  | cons a t => exact Nat.succ_pos _

/-- `BatchProcessor.processInBatches`: each batch is run concurrently with
`Promise.allSettled` (which preserves order), batches are sequential, and the
settled results are concatenated. -/
def processInBatches (batchSize : Nat) (services : List Service) :
    List (SettledResult ExecOutcome) :=
  ((chunks batchSize services).map (fun batch => batch.map executeService)).flatten

/-- One entry of `this.results.details`. -/
structure ServiceDetail where
  service : String
  success : Bool
  articlesFound : Nat
  messagesSent : Nat
  error : Option String
deriving DecidableEq, Repr

/-- The aggregate `this.results` object of `OnceExecutor` (duration omitted). -/
structure BatchResults where
  total : Nat
  success : Nat
  failed : Nat
  articlesFound : Nat
  messagesSent : Nat
  details : List ServiceDetail
deriving DecidableEq, Repr

/-- One iteration of `OnceExecutor.analyzeResults`'s `forEach`: a fulfilled
successful result is counted by name with its counts (`|| 0` when absent); any
other result is a failure, taking the name and error from `result.value` when
fulfilled and falling back to `'Unknown'` with the rejection reason otherwise. -/
def analyzeStep (acc : BatchResults) (r : SettledResult ExecOutcome) : BatchResults :=
  match r with
  | .fulfilled v =>
    if v.success then
      let af := (v.result.map (fun x => x.articlesFound)).getD 0
      let ms := (v.result.map (fun x => x.messagesSent)).getD 0
      { acc with
          success := acc.success + 1
          articlesFound := acc.articlesFound + af
          messagesSent := acc.messagesSent + ms
          details := acc.details ++ [⟨v.service, true, af, ms, none⟩] }
    else
      { acc with
          failed := acc.failed + 1
          details := acc.details ++ [⟨v.service, false, 0, 0, v.error⟩] }
  | .rejected reason =>
    { acc with
        failed := acc.failed + 1
        details := acc.details ++ [⟨"Unknown", false, 0, 0, some reason⟩] }

/-- `OnceExecutor.analyzeResults(results)` starting from the fresh `results`
object with `total` already set to the number of loaded services. -/
def analyzeResults (total : Nat) (rs : List (SettledResult ExecOutcome)) : BatchResults :=
  rs.foldl analyzeStep ⟨total, 0, 0, 0, 0, []⟩

/-- `OnceExecutor.executeAllServicesInParallel` restricted to its observable
aggregation: batch-process all services and fold the settled results. -/
def runAllOnce (batchSize : Nat) (services : List Service) : BatchResults :=
  analyzeResults services.length (processInBatches batchSize services)

/-! ## BaseScheduler run interleaving (`src/services/common/baseScheduler.js`)

`executeScheduledJob`, `runManualCheck` and `executeJob` coordinate through
the `isRunning` / `isManualRunning` flags.  JavaScript is single-threaded, so
each synchronous segment between `await` points is atomic; the embedding is a
step relation whose transitions are exactly those segments:

* scheduled trigger: `executeScheduledJob` returns at once when
  `isManualRunning` (skip), `executeJob('scheduled')` returns at once when
  `isRunning` (skip); otherwise `isRunning := true` and the job body starts —
  all before the first `await` of the body;
* scheduled finish: the body's last `await` resumes, `finally` clears
  `isRunning`;
* manual trigger / wake-up: `runManualCheck` polls `while (isRunning) await
  sleep(1000)`; when the flag is clear it sets `isManualRunning := true` and
  enters `executeJob('manual')` (whose skip guard requires a scheduled
  trigger, so it proceeds), setting `isRunning := true` in the same segment;
* manual finish: `finally` clears `isRunning` then `isManualRunning`. -/

/-- Progress of the scheduled run. -/
inductive SchedPc
  | idle
  | running
  | done
  | skippedManual
  | skippedBusy
deriving DecidableEq, Repr

/-- Progress of the manual run. -/
inductive ManualPc
  | idle
  | waiting
  | running
  | done
deriving DecidableEq, Repr

structure SchedulerState where
  isRunning : Bool
  isManualRunning : Bool
  sched : SchedPc
  manual : ManualPc
deriving DecidableEq, Repr

/-- Atomic segment of a scheduled trigger (`executeScheduledJob` up to the
first suspension of the job body, or its immediate skip return). -/
def schedTriggerStep (st : SchedulerState) : SchedulerState :=
  if st.isManualRunning then { st with sched := .skippedManual }
  else if st.isRunning then { st with sched := .skippedBusy }
  else { st with isRunning := true, sched := .running }

/-- Atomic segment in which the manual run (re)checks the wait-loop guard of
`runManualCheck` and, when free, claims both flags and starts the body. -/
def manualEnterStep (st : SchedulerState) : SchedulerState :=
  if st.isRunning then { st with manual := .waiting }
  else { st with isRunning := true, isManualRunning := true, manual := .running }

/-- The interleaving relation: each constructor is one atomic segment of one
of the two runs. -/
inductive SchedStep : SchedulerState → SchedulerState → Prop
  | schedTrigger (st : SchedulerState) (h : st.sched = .idle) :
      SchedStep st (schedTriggerStep st)
  | schedFinish (st : SchedulerState) (h : st.sched = .running) :
      SchedStep st { st with isRunning := false, sched := .done }
  | manualTrigger (st : SchedulerState) (h : st.manual = .idle) :
      SchedStep st (manualEnterStep st)
  | manualWake (st : SchedulerState) (h : st.manual = .waiting) :
      SchedStep st (manualEnterStep st)
  | manualFinish (st : SchedulerState) (h : st.manual = .running) :
      SchedStep st { st with isRunning := false, isManualRunning := false, manual := .done }

/-- The initial state of a freshly constructed scheduler. -/
def initialSchedulerState : SchedulerState :=
  ⟨false, false, .idle, .idle⟩

/-- States reachable from the initial state by interleaved segments. -/
inductive SchedReach : SchedulerState → Prop
  | init : SchedReach initialSchedulerState
  | step {st st' : SchedulerState} (h : SchedReach st) (hs : SchedStep st st') :
      SchedReach st'

/-! ## Basic lemmas about the cache primitives -/

theorem setHas_iff_mem (s : List String) (x : String) :
    setHas s x = true ↔ x ∈ s := by
  simp [setHas]

theorem setHas_setAdd_self (s : List String) (x : String) :
    setHas (setAdd s x) x = true := by
  by_cases h : setHas s x = true
  · simpa [setAdd, h] using h
  · simp only [setAdd, h]
    simp only [Bool.false_eq_true] at h
    simp [h, setHas_iff_mem]

theorem setHas_setAdd_of_true (s : List String) (x y : String)
    (h : setHas s x = true) : setHas (setAdd s y) x = true := by
  by_cases hy : setHas s y = true
  · simpa [setAdd, hy]
  · simp only [setAdd, hy]
    simp only [Bool.false_eq_true] at hy
    rw [setHas_iff_mem] at h ⊢
    simp [hy, h]

theorem setHas_foldl_setAdd_of_true {α : Type} (f : α → String) (l : List α)
    (s : List String) (x : String) (h : setHas s x = true) :
    setHas (l.foldl (fun t q => setAdd t (f q)) s) x = true := by
  induction l generalizing s with
  | nil => simpa using h
  | cons a t ih =>
    simpa using ih (setAdd s (f a)) (setHas_setAdd_of_true s x (f a) h)

theorem setHas_foldl_setAdd_mem {α : Type} (f : α → String) (l : List α)
    (s : List String) (p : α) (hp : p ∈ l) :
    setHas (l.foldl (fun t q => setAdd t (f q)) s) (f p) = true := by
  induction l generalizing s with
  | nil => cases hp
  | cons a t ih =>
    rcases List.mem_cons.mp hp with h | h
    · subst h
      exact setHas_foldl_setAdd_of_true f t _ _ (setHas_setAdd_self s (f p))
    · simpa using ih (setAdd s (f a)) h

theorem mapGet_mapSet_self (m : List (String × List String)) (k : String)
    (v : List String) : mapGet (mapSet m k v) k = some v := by
  induction m with
  | nil => simp [mapSet, mapGet]
  | cons p rest ih =>
    by_cases h : p.1 = k
    · simp [mapSet, mapGet, h]
    · simp [mapSet, mapGet, h, ih]

theorem getTodayCache_cacheMode (c : DailyCache) (today : String) :
    (getTodayCache c today).2.cacheMode = c.cacheMode := by
  unfold getTodayCache
  cases mapGet c.dailyCache today <;> simp

theorem getTodayCache_after_set (c : DailyCache) (today : String) (v : List String) :
    getTodayCache (DailyCache.mk c.cacheMode (mapSet c.dailyCache today v)) today
      = (v, DailyCache.mk c.cacheMode (mapSet c.dailyCache today v)) := by
  simp [getTodayCache, mapGet_mapSet_self]

theorem filterNewPosts_bypass {α : Type} (c : DailyCache) (today : String)
    (posts : List α) (f : α → String) (b m : Bool)
    (hc : c.cacheMode = CacheMode.bypass) :
    filterNewPosts c today posts f b m = (posts, c, 0) := by
  simp [filterNewPosts, hc]

/-- First call on a day where none of the posts is cached keeps everything and
(with marking on) records everything; the second identical call keeps nothing. -/
theorem filterNewPosts_fresh_twice {α : Type} (c : DailyCache) (today : String)
    (posts : List α) (f : α → String)
    (hb : c.cacheMode ≠ CacheMode.bypass)
    (hnew : ∀ p ∈ posts, (hasSent c today (f p) false).1 = false) :
    (filterNewPosts c today posts f false true).1 = posts ∧
    (filterNewPosts (filterNewPosts c today posts f false true).2.1
      today posts f false true).1 = [] := by
  have hnew' : ∀ p ∈ posts, setHas (getTodayCache c today).1 (f p) = false := by
    intro p hp
    have := hnew p hp
    simpa [hasSent, hb] using this
  have hfilter : posts.filter (fun p => !setHas (getTodayCache c today).1 (f p)) = posts := by
    apply List.filter_eq_self.mpr
    intro p hp
    simp [hnew' p hp]
  have hmode2 : (getTodayCache c today).2.cacheMode = c.cacheMode :=
    getTodayCache_cacheMode c today
  rcases posts with _ | ⟨p0, rest⟩
  · refine ⟨by simp [filterNewPosts, hb], ?_⟩
    have h1 : (filterNewPosts c today ([] : List α) f false true).2.1
        = (getTodayCache c today).2 := by
      unfold filterNewPosts
      rw [if_neg (by simp [hb])]
      simp
    rw [h1]
    unfold filterNewPosts
    rw [if_neg (by simp [hmode2, hb])]
    simp
  · have hcall1fst : (filterNewPosts c today (p0 :: rest) f false true).1
        = p0 :: rest := by
      unfold filterNewPosts
      rw [if_neg (by simp [hb])]
      simp only [hfilter]
      rw [if_pos (by simp)]
    have hcall1 : (filterNewPosts c today (p0 :: rest) f false true).2.1 =
        DailyCache.mk (getTodayCache c today).2.cacheMode
          (mapSet (getTodayCache c today).2.dailyCache today
            ((p0 :: rest).foldl (fun t q => setAdd t (f q))
              (getTodayCache c today).1)) := by
      unfold filterNewPosts
      rw [if_neg (by simp [hb])]
      simp only [hfilter]
      rw [if_pos (by simp)]
    refine ⟨hcall1fst, ?_⟩
    rw [hcall1]
    have hall : ((p0 :: rest).filter (fun p =>
        !setHas ((p0 :: rest).foldl (fun t q => setAdd t (f q))
          (getTodayCache c today).1) (f p))) = [] := by
      apply List.filter_eq_nil_iff.mpr
      intro p hp
      have hmem := setHas_foldl_setAdd_mem f (p0 :: rest) (getTodayCache c today).1 p hp
      simp only [List.foldl_cons] at hmem
      simp [hmem]
    unfold filterNewPosts
    rw [if_neg (by simp [hmode2, hb])]
    rw [getTodayCache_after_set]
    simp only [hall]
    simp

/-- Claim C4: in memory and file mode, `filterNewPosts` called twice the same
day with the same candidates and identifier function (marking enabled) returns
the full list then the empty list; in bypass mode it returns the full list on
both calls (and leaves the cache untouched). -/
theorem claim4_dedup_idempotence (c : DailyCache) (today : String)
    (posts : List Post) (f : Post → String) :
    ((c.cacheMode = CacheMode.memory ∨ c.cacheMode = CacheMode.file) →
      (∀ p ∈ posts, (hasSent c today (f p) false).1 = false) →
      (filterNewPosts c today posts f false true).1 = posts ∧
      (filterNewPosts (filterNewPosts c today posts f false true).2.1
        today posts f false true).1 = []) ∧
    (c.cacheMode = CacheMode.bypass →
      filterNewPosts c today posts f false true = (posts, c, 0) ∧
      filterNewPosts (filterNewPosts c today posts f false true).2.1
        today posts f false true = (posts, c, 0)) := by
  constructor
  · intro hmode hnew
    have hb : c.cacheMode ≠ CacheMode.bypass := by
      rcases hmode with h | h <;> simp [h]
    exact filterNewPosts_fresh_twice c today posts f hb hnew
  · intro hc
    have h1 := filterNewPosts_bypass c today posts f false true hc
    refine ⟨h1, ?_⟩
    rw [h1]
    exact filterNewPosts_bypass c today posts f false true hc

/-- Witness for C4 at a concrete two-article candidate list in memory mode. -/
theorem claim4_dedup_idempotence_witness :
    (filterNewPosts (⟨CacheMode.memory, []⟩ : DailyCache) "2025-10-11"
      ([⟨"u1"⟩, ⟨"u2"⟩] : List Post) (fun p => p.url) false true).1
        = ([⟨"u1"⟩, ⟨"u2"⟩] : List Post) ∧
    (filterNewPosts (filterNewPosts (⟨CacheMode.memory, []⟩ : DailyCache)
        "2025-10-11" ([⟨"u1"⟩, ⟨"u2"⟩] : List Post) (fun p => p.url) false true).2.1
      "2025-10-11" ([⟨"u1"⟩, ⟨"u2"⟩] : List Post) (fun p => p.url) false true).1 = [] :=
  (claim4_dedup_idempotence ⟨CacheMode.memory, []⟩ "2025-10-11"
    [⟨"u1"⟩, ⟨"u2"⟩] (fun p => p.url)).1 (Or.inl rfl) (by decide)

/-- Counterexample to C5 as stated: `markMultipleAsSent` performs no bypass
check, so even a bypass-mode cache gains the posts' identifiers in its stored
day bucket. -/
theorem claim5_counterexample :
    markMultipleAsSent (⟨CacheMode.bypass, []⟩ : DailyCache) "2025-10-11"
        ([⟨"u1"⟩] : List Post) (fun p => p.url)
      ≠ (⟨CacheMode.bypass, []⟩ : DailyCache) := by
  decide

/-- Claim C5 as amended: for a bypass-mode cache, `hasSent` always answers
false and leaves the state alone, and `markAsSent` and `filterNewPosts` return
their input state unchanged with no file write (`markMultipleAsSent`, by
contrast, is the one mutating exception shown in the counterexample; it too
never writes a file since it never calls `saveToFile`). -/
theorem claim5_bypass_noop (c : DailyCache) (today postId : String) (b : Bool)
    (posts : List Post) (f : Post → String) (m : Bool)
    (hc : c.cacheMode = CacheMode.bypass) :
    hasSent c today postId b = (false, c) ∧
    markAsSent c today postId b = (c, 0) ∧
    filterNewPosts c today posts f b m = (posts, c, 0) := by
  refine ⟨?_, ?_, ?_⟩
  · simp [hasSent, hc]
  · simp [markAsSent, hc]
  · simp [filterNewPosts, hc]

/-- Witness for C5's amended theorem on a concrete bypass cache. -/
theorem claim5_bypass_noop_witness :
    hasSent (⟨CacheMode.bypass, []⟩ : DailyCache) "2025-10-11" "u1" false
      = (false, ⟨CacheMode.bypass, []⟩) ∧
    markAsSent (⟨CacheMode.bypass, []⟩ : DailyCache) "2025-10-11" "u1" false
      = (⟨CacheMode.bypass, []⟩, 0) ∧
    filterNewPosts (⟨CacheMode.bypass, []⟩ : DailyCache) "2025-10-11"
        ([⟨"u1"⟩] : List Post) (fun p => p.url) false true
      = ([⟨"u1"⟩], ⟨CacheMode.bypass, []⟩, 0) :=
  claim5_bypass_noop ⟨CacheMode.bypass, []⟩ "2025-10-11" "u1" false
    [⟨"u1"⟩] (fun p => p.url) true rfl

/-! ## Lemmas about the delivery loop -/

theorem deliveryLoop_sent (today : String) (b : Bool) (ok : Post → Bool)
    (l : List Post) : ∀ (succ fail : Nat) (cache : DailyCache) (w : Nat),
    (deliveryLoop today b ok l (succ, fail, cache, w)).1
      = succ + (l.filter ok).length := by
  induction l with
  | nil => intro succ fail cache w; simp [deliveryLoop]
  | cons a t ih =>
    intro succ fail cache w
    by_cases h : ok a = true
    · simp only [deliveryLoop, h, if_true]
      rw [ih]
      simp [List.filter_cons, h]
      omega
    · simp only [deliveryLoop, h]
      rw [if_neg (by simp [h])]
      rw [ih]
      simp only [Bool.not_eq_true] at h
      simp [List.filter_cons, h]

theorem deliveryLoop_failed (today : String) (b : Bool) (ok : Post → Bool)
    (l : List Post) : ∀ (succ fail : Nat) (cache : DailyCache) (w : Nat),
    (deliveryLoop today b ok l (succ, fail, cache, w)).2.1
      = fail + (l.filter (fun a => !ok a)).length := by
  induction l with
  | nil => intro succ fail cache w; simp [deliveryLoop]
  | cons a t ih =>
    intro succ fail cache w
    by_cases h : ok a = true
    · simp only [deliveryLoop, h, if_true]
      rw [ih]
      simp [List.filter_cons, h]
    · simp only [deliveryLoop, h]
      rw [if_neg (by simp [h])]
      rw [ih]
      simp only [Bool.not_eq_true] at h
      simp [List.filter_cons, h]
      omega

/-- `hasSent` on a cache whose map was just set at today's key reads exactly
the written bucket. -/
theorem hasSent_mk_set (mode : CacheMode) (m : List (String × List String))
    (today x : String) (v : List String) (hm : mode ≠ CacheMode.bypass) :
    (hasSent (DailyCache.mk mode (mapSet m today v)) today x false).1
      = setHas v x := by
  simp [hasSent, hm, getTodayCache, mapGet_mapSet_self]

theorem hasSent_markAsSent_preserve (c : DailyCache) (today x postId : String)
    (b : Bool) (h : (hasSent c today x false).1 = true) :
    (hasSent (markAsSent c today postId b).1 today x false).1 = true := by
  by_cases hbp : c.cacheMode = CacheMode.bypass
  · simp [hasSent, hbp] at h
  · have hx : setHas (getTodayCache c today).1 x = true := by
      simpa [hasSent, hbp] using h
    have hmode2 := getTodayCache_cacheMode c today
    unfold markAsSent
    split
    · exact h
    · rw [hasSent_mk_set (getTodayCache c today).2.cacheMode
        (getTodayCache c today).2.dailyCache today x
        (setAdd (getTodayCache c today).1 postId)
        (by rw [hmode2]; exact hbp)]
      exact setHas_setAdd_of_true _ _ _ hx

theorem deliveryLoop_preserves (today : String) (b : Bool) (ok : Post → Bool)
    (x : String) (l : List Post) :
    ∀ st : Nat × Nat × DailyCache × Nat,
    (hasSent st.2.2.1 today x false).1 = true →
    (hasSent (deliveryLoop today b ok l st).2.2.1 today x false).1 = true := by
  induction l with
  | nil =>
    rintro ⟨succ, fail, cache, w⟩ h
    simpa [deliveryLoop] using h
  | cons a t ih =>
    rintro ⟨succ, fail, cache, w⟩ h
    by_cases hok : ok a = true
    · simp only [deliveryLoop, hok, if_true]
      exact ih _ (hasSent_markAsSent_preserve cache today x a.url b h)
    · simp only [deliveryLoop, hok]
      rw [if_neg (by simp [hok])]
      exact ih _ h

/-- With marking enabled and no bypass, every post kept by `filterNewPosts` is
recorded as sent in the resulting cache state. -/
theorem filterNewPosts_marks {α : Type} (c : DailyCache) (today : String)
    (posts : List α) (f : α → String) (hb : c.cacheMode ≠ CacheMode.bypass) :
    ∀ a ∈ (filterNewPosts c today posts f false true).1,
      (hasSent (filterNewPosts c today posts f false true).2.1
        today (f a) false).1 = true := by
  have hmode2 := getTodayCache_cacheMode c today
  by_cases hk : 0 < (posts.filter
      (fun p => !setHas (getTodayCache c today).1 (f p))).length
  · have hcall : filterNewPosts c today posts f false true =
        (posts.filter (fun p => !setHas (getTodayCache c today).1 (f p)),
         DailyCache.mk (getTodayCache c today).2.cacheMode
          (mapSet (getTodayCache c today).2.dailyCache today
            ((posts.filter (fun p => !setHas (getTodayCache c today).1 (f p))).foldl
              (fun t q => setAdd t (f q)) (getTodayCache c today).1)),
         if c.cacheMode = CacheMode.file then 1 else 0) := by
      unfold filterNewPosts
      rw [if_neg (by simp [hb])]
      rw [if_pos (by simp [hk])]
    rw [hcall]
    intro a ha
    simp only at ha
    have hmem := setHas_foldl_setAdd_mem f
      (posts.filter (fun p => !setHas (getTodayCache c today).1 (f p)))
      (getTodayCache c today).1 a ha
    rw [hasSent_mk_set (getTodayCache c today).2.cacheMode
      (getTodayCache c today).2.dailyCache today (f a)
      ((posts.filter (fun p => !setHas (getTodayCache c today).1 (f p))).foldl
        (fun t q => setAdd t (f q)) (getTodayCache c today).1)
      (by rw [hmode2]; exact hb)]
    exact hmem
  · have hnil : (posts.filter
        (fun p => !setHas (getTodayCache c today).1 (f p))) = [] := by
      have h0 := Nat.eq_zero_of_not_pos hk
      exact List.length_eq_zero.mp h0
    have hcall : (filterNewPosts c today posts f false true).1 = [] := by
      unfold filterNewPosts
      rw [if_neg (by simp [hb])]
      rw [if_neg (by simp [hnil])]
      simp [hnil]
    rw [hcall]
    intro a ha
    cases ha

theorem filterNewPosts_nil {α : Type} (c : DailyCache) (today : String)
    (f : α → String) (b m : Bool) :
    (filterNewPosts c today ([] : List α) f b m).1 = [] := by
  unfold filterNewPosts
  split
  · rfl
  · simp

theorem filter_length_split {α : Type} (l : List α) (p : α → Bool) :
    (l.filter p).length + (l.filter (fun a => !p a)).length = l.length := by
  induction l with
  | nil => simp
  | cons a t ih =>
    by_cases h : p a = true
    · simp [List.filter_cons, h]
      omega
    · simp only [Bool.not_eq_true] at h
      simp [List.filter_cons, h]
      omega

/-- Counterexample to C8 as stated: with a fresh memory-mode cache and no
bypass, an article whose delivery fails (zero messages sent) is nevertheless
recorded as sent, because `filterNewPosts` marked it at filter time. -/
theorem claim8_counterexample :
    (executeArticleCheck (⟨CacheMode.memory, []⟩ : DailyCache) "2025-10-11" false
        ([⟨"u1"⟩] : List Post) (fun _ => false)).1.messagesSent = 0 ∧
    (hasSent (executeArticleCheck (⟨CacheMode.memory, []⟩ : DailyCache) "2025-10-11"
        false ([⟨"u1"⟩] : List Post) (fun _ => false)).2.1
      "2025-10-11" "u1" false).1 = true := by
  decide

/-- Claim C8 as amended: within one run, `messagesSent` counts exactly the
successful deliveries among the deduplicated articles, `failed` counts exactly
the failed ones, every deduplicated article receives a delivery attempt
(`messagesSent + failed` covers them all, so one failure never aborts the
rest), and — in a non-bypass run — every deduplicated article ends up marked
seen, whether or not its delivery succeeded (the marking happens in
`filterNewPosts`, not only on delivery success). -/
theorem claim8_delivery_accounting (cache : DailyCache) (today : String)
    (bypassCache : Bool) (articles : List Post) (deliverOk : Post → Bool) :
    (executeArticleCheck cache today bypassCache articles deliverOk).1.messagesSent
      = ((filterNewPosts cache today articles (fun a => a.url) bypassCache
          true).1.filter deliverOk).length ∧
    (executeArticleCheck cache today bypassCache articles deliverOk).1.failed
      = ((filterNewPosts cache today articles (fun a => a.url) bypassCache
          true).1.filter (fun a => !deliverOk a)).length ∧
    (executeArticleCheck cache today bypassCache articles deliverOk).1.messagesSent
        + (executeArticleCheck cache today bypassCache articles deliverOk).1.failed
      = (filterNewPosts cache today articles (fun a => a.url) bypassCache
          true).1.length ∧
    (cache.cacheMode ≠ CacheMode.bypass → bypassCache = false →
      ∀ a ∈ (filterNewPosts cache today articles (fun a => a.url) bypassCache true).1,
        (hasSent (executeArticleCheck cache today bypassCache articles
          deliverOk).2.1 today a.url false).1 = true) := by
  by_cases hlen : articles.length = 0
  · have hnil : articles = [] := List.length_eq_zero.mp hlen
    subst hnil
    have hk := filterNewPosts_nil (α := Post) cache today (fun a => a.url)
      bypassCache true
    refine ⟨?_, ?_, ?_, ?_⟩ <;> simp [executeArticleCheck, hk]
  · unfold executeArticleCheck
    rw [if_neg (by simpa using hlen)]
    by_cases hk : (filterNewPosts cache today articles (fun a => a.url)
        bypassCache true).1.length = 0
    · rw [if_pos (by simpa using hk)]
      have hknil := List.length_eq_zero.mp hk
      refine ⟨?_, ?_, ?_, ?_⟩ <;> simp [hknil]
    · rw [if_neg (by simpa using hk)]
      refine ⟨?_, ?_, ?_, ?_⟩
      · simp only []
        rw [deliveryLoop_sent]
        simp
      · simp only []
        rw [deliveryLoop_failed]
        simp
      · simp only []
        rw [deliveryLoop_sent, deliveryLoop_failed]
        simpa using filter_length_split _ deliverOk
      · intro hb hbc a ha
        simp only []
        subst hbc
        apply deliveryLoop_preserves
        exact filterNewPosts_marks cache today articles (fun a => a.url) hb a ha

/-- Witness for C8's amended theorem: after a concrete run in memory mode the
single (successfully delivered) article is recorded as sent. -/
theorem claim8_delivery_accounting_witness :
    (hasSent (executeArticleCheck (⟨CacheMode.memory, []⟩ : DailyCache)
        "2025-10-11" false ([⟨"u1"⟩] : List Post) (fun p => p.url == "u1")).2.1
      "2025-10-11" "u1" false).1 = true :=
  (claim8_delivery_accounting ⟨CacheMode.memory, []⟩ "2025-10-11" false
    [⟨"u1"⟩] (fun p => p.url == "u1")).2.2.2 (by decide) rfl ⟨"u1"⟩ (by decide)

/-! ## Lemmas about the batch pipeline -/

theorem chunks_flatten {α : Type} (n : Nat) (l : List α) :
    (chunks n l).flatten = l := by
  rw [chunks]
  split
  · next h =>
    rw [List.isEmpty_iff] at h
    simp [h]
  · split
    · simp
    · rw [List.flatten_cons, chunks_flatten n (l.drop n), List.take_append_drop]
termination_by l.length
decreasing_by
  next h hn =>
    rw [List.length_drop]
    apply Nat.sub_lt _ (Nat.pos_of_ne_zero hn)
    cases l with
    | nil => simp at h
    | cons a t => exact Nat.succ_pos _

/-- Batching only groups the settled results; the result list is the plain map
of `executeService` over the sources, in order. -/
theorem processInBatches_eq_map (batchSize : Nat) (services : List Service) :
    processInBatches batchSize services = services.map executeService := by
  unfold processInBatches
  rw [← List.map_flatten, chunks_flatten]

/-- The detail entry `analyzeResults` produces for one settled result. -/
def detailOf (r : SettledResult ExecOutcome) : ServiceDetail :=
  match r with
  | .fulfilled v =>
    if v.success then
      ⟨v.service, true, (v.result.map (fun x => x.articlesFound)).getD 0,
       (v.result.map (fun x => x.messagesSent)).getD 0, none⟩
    else ⟨v.service, false, 0, 0, v.error⟩
  | .rejected reason => ⟨"Unknown", false, 0, 0, some reason⟩

/-- Whether a settled result counts into `this.results.success`. -/
def isSuccessResult (r : SettledResult ExecOutcome) : Bool :=
  match r with
  | .fulfilled v => v.success
  | .rejected _ => false

theorem analyzeStep_details (acc : BatchResults) (r : SettledResult ExecOutcome) :
    (analyzeStep acc r).details = acc.details ++ [detailOf r] := by
  rcases r with v | reason
  · by_cases h : v.success = true <;> simp [analyzeStep, detailOf, h]
  · simp [analyzeStep, detailOf]

theorem analyzeStep_success (acc : BatchResults) (r : SettledResult ExecOutcome) :
    (analyzeStep acc r).success
      = acc.success + (if isSuccessResult r then 1 else 0) := by
  rcases r with v | reason
  · by_cases h : v.success = true <;> simp [analyzeStep, isSuccessResult, h]
  · simp [analyzeStep, isSuccessResult]

theorem analyzeStep_failed (acc : BatchResults) (r : SettledResult ExecOutcome) :
    (analyzeStep acc r).failed
      = acc.failed + (if isSuccessResult r then 0 else 1) := by
  rcases r with v | reason
  · by_cases h : v.success = true <;> simp [analyzeStep, isSuccessResult, h]
  · simp [analyzeStep, isSuccessResult]

theorem foldl_analyzeStep_details (rs : List (SettledResult ExecOutcome)) :
    ∀ acc : BatchResults,
    (rs.foldl analyzeStep acc).details = acc.details ++ rs.map detailOf := by
  induction rs with
  | nil => intro acc; simp
  | cons r t ih =>
    intro acc
    rw [List.foldl_cons, ih, analyzeStep_details]
    simp

theorem foldl_analyzeStep_success (rs : List (SettledResult ExecOutcome)) :
    ∀ acc : BatchResults,
    (rs.foldl analyzeStep acc).success = acc.success + rs.countP isSuccessResult := by
  induction rs with
  | nil => intro acc; simp
  | cons r t ih =>
    intro acc
    rw [List.foldl_cons, ih, analyzeStep_success, List.countP_cons]
    by_cases h : isSuccessResult r = true <;> simp [h] <;> omega

theorem foldl_analyzeStep_failed (rs : List (SettledResult ExecOutcome)) :
    ∀ acc : BatchResults,
    (rs.foldl analyzeStep acc).failed
      = acc.failed + rs.countP (fun r => !isSuccessResult r) := by
  induction rs with
  | nil => intro acc; simp
  | cons r t ih =>
    intro acc
    rw [List.foldl_cons, ih, analyzeStep_failed, List.countP_cons]
    by_cases h : isSuccessResult r = true <;> simp [h] <;> omega

theorem runAllOnce_details (batchSize : Nat) (services : List Service) :
    (runAllOnce batchSize services).details
      = services.map (fun s => detailOf (executeService s)) := by
  unfold runAllOnce analyzeResults
  rw [processInBatches_eq_map, foldl_analyzeStep_details]
  simp [List.map_map, Function.comp]

theorem runAllOnce_success (batchSize : Nat) (services : List Service) :
    (runAllOnce batchSize services).success
      = services.countP (fun s => isSuccessResult (executeService s)) := by
  unfold runAllOnce analyzeResults
  rw [processInBatches_eq_map, foldl_analyzeStep_success]
  simp only [List.countP_map, Nat.zero_add]
  rfl

theorem runAllOnce_failed (batchSize : Nat) (services : List Service) :
    (runAllOnce batchSize services).failed
      = services.countP (fun s => !isSuccessResult (executeService s)) := by
  unfold runAllOnce analyzeResults
  rw [processInBatches_eq_map, foldl_analyzeStep_failed]
  simp only [List.countP_map, Nat.zero_add]
  rfl

theorem map_eraseIdx {α β : Type} (f : α → β) (l : List α) :
    ∀ i : Nat, (l.eraseIdx i).map f = (l.map f).eraseIdx i := by
  induction l with
  | nil => intro i; simp
  | cons a t ih =>
    intro i
    cases i with
    | zero => simp
    | succ j => simp [List.eraseIdx_cons_succ, ih j]

/-- Counterexample to C7 as stated: a timed-out source is enumerated in the
detail list, but under the name `'Unknown'` rather than its own name, because
`analyzeResults` cannot recover `result.value` from a rejected promise. -/
theorem claim7_counterexample :
    ((runAllOnce 3 [⟨"Toss", ServiceBehavior.timesOut⟩]).details.map
      (fun d => d.service)) = ["Unknown"] ∧
    ((runAllOnce 3 [⟨"Toss", ServiceBehavior.timesOut⟩]).details.map
      (fun d => d.service)) ≠ ["Toss"] := by
  rw [runAllOnce_details]
  decide

/-- Claim C7 as amended: however many sources fail or time out, `runAll`
returns an aggregate result whose detail list has one entry per source and
whose success/failure counts partition the sources; a source failing with a
thrown error is enumerated with its own name and error, while a source
exceeding the per-source timeout is enumerated as a failure carrying the
timeout error message but the placeholder name `'Unknown'` instead of its own
name. -/
theorem claim7_batch_isolation (batchSize : Nat) (services : List Service) :
    (runAllOnce batchSize services).details.length = services.length ∧
    (runAllOnce batchSize services).success + (runAllOnce batchSize services).failed
      = services.length ∧
    (∀ (i : Nat) (s : Service) (e : String), services[i]? = some s →
      s.behavior = ServiceBehavior.throws e →
      (runAllOnce batchSize services).details[i]?
        = some ⟨s.name, false, 0, 0, some e⟩) ∧
    (∀ (i : Nat) (s : Service), services[i]? = some s →
      s.behavior = ServiceBehavior.timesOut →
      (runAllOnce batchSize services).details[i]?
        = some ⟨"Unknown", false, 0, 0, some timeoutMessage⟩) := by
  refine ⟨?_, ?_, ?_, ?_⟩
  · rw [runAllOnce_details]
    simp
  · rw [runAllOnce_success, runAllOnce_failed]
    rw [List.countP_eq_length_filter, List.countP_eq_length_filter]
    exact filter_length_split services _
  · intro i s e hi hb
    rw [runAllOnce_details]
    rw [List.getElem?_map, hi]
    simp [executeService, detailOf, hb]
  · intro i s hi hb
    rw [runAllOnce_details]
    rw [List.getElem?_map, hi]
    simp [executeService, detailOf, hb, timeoutMessage]

/-- Witness for C7's amended theorem on a concrete two-source batch. -/
theorem claim7_batch_isolation_witness :
    (runAllOnce 1 [⟨"A", ServiceBehavior.ok ⟨true, 2, 1, 0⟩⟩,
      ⟨"B", ServiceBehavior.throws "boom"⟩]).details[1]?
      = some ⟨"B", false, 0, 0, some "boom"⟩ :=
  (claim7_batch_isolation 1 [⟨"A", ServiceBehavior.ok ⟨true, 2, 1, 0⟩⟩,
    ⟨"B", ServiceBehavior.throws "boom"⟩]).2.2.1 1
    ⟨"B", ServiceBehavior.throws "boom"⟩ "boom" rfl rfl

/-! ## The once-mode source pipeline for C6 -/

/-- One feed source as run by the once-mode executor: its name, the outcome of
its RSS fetch, and the delivery outcomes of its messenger. -/
structure SourceSpec where
  name : String
  fetch : Except String (List FeedItem)
  deliverOk : Post → Bool

/-- One source's once-mode run as a `Service` for the batch processor: fetch
(errors caught inside `getRecentArticles`), dedup against a fresh per-process
cache, deliver; nothing in this chain throws, so `runManualCheck` resolves
with the run result. -/
def onceService (todayStart : Int) (todayKey : String) (cacheMode : CacheMode)
    (bypassCache : Bool) (sp : SourceSpec) : Service :=
  ⟨sp.name, .ok (executeArticleCheck ⟨cacheMode, []⟩ todayKey bypassCache
    (getRecentArticles sp.fetch todayStart) sp.deliverOk).1⟩

/-- The two sources of the C6 counterexample: source A's fetch throws, source
B's fetch yields one deliverable article. -/
def c6Specs : List SourceSpec :=
  [⟨"A", Except.error "network error", fun _ => true⟩,
   ⟨"B", Except.ok [⟨⟨"u1"⟩, 100⟩], fun _ => true⟩]

/-- Counterexample to C6 as stated: two sources, the first of which throws on
fetch; the claim demands `succeeded = 1` and `failed = 1`, but the fetch error
is caught inside `getRecentArticles` (returning an empty article list), so the
batch reports 2 succeeded and 0 failed. -/
theorem claim6_counterexample :
    (runAllOnce 3 (c6Specs.map
      (onceService 0 "2025-10-11" CacheMode.bypass true))).success = 2 ∧
    (runAllOnce 3 (c6Specs.map
      (onceService 0 "2025-10-11" CacheMode.bypass true))).failed = 0 := by
  constructor
  · rw [runAllOnce_success]
    decide
  · rw [runAllOnce_failed]
    decide

/-- Claim C6 as amended: a fetch failure does not surface as a failed run —
`getRecentArticles` catches it and returns no articles, so every once-mode
source run succeeds: the batch reports `succeeded = N`, `failed = 0`, the
throwing source's detail entry is a success with zero articles and zero
messages, and every other source's detail entry is exactly what it would be
had the throwing source been omitted. -/
theorem claim6_fetch_failure_swallowed (specs : List SourceSpec)
    (batchSize : Nat) (todayStart : Int) (todayKey : String)
    (cacheMode : CacheMode) (bypassCache : Bool) :
    (runAllOnce batchSize (specs.map
      (onceService todayStart todayKey cacheMode bypassCache))).success
        = specs.length ∧
    (runAllOnce batchSize (specs.map
      (onceService todayStart todayKey cacheMode bypassCache))).failed = 0 ∧
    (∀ (i : Nat) (sp : SourceSpec) (e : String), specs[i]? = some sp →
      sp.fetch = Except.error e →
      (runAllOnce batchSize (specs.map
        (onceService todayStart todayKey cacheMode bypassCache))).details[i]?
        = some ⟨sp.name, true, 0, 0, none⟩) ∧
    (∀ i : Nat,
      (runAllOnce batchSize ((specs.eraseIdx i).map
        (onceService todayStart todayKey cacheMode bypassCache))).details
      = (runAllOnce batchSize (specs.map
        (onceService todayStart todayKey cacheMode bypassCache))).details.eraseIdx i) := by
  refine ⟨?_, ?_, ?_, ?_⟩
  · rw [runAllOnce_success]
    rw [List.countP_map]
    apply List.countP_eq_length.mpr
    intro sp hsp
    simp [Function.comp, onceService, executeService, isSuccessResult]
  · rw [runAllOnce_failed]
    rw [List.countP_map]
    apply List.countP_eq_zero.mpr
    intro sp hsp
    simp [Function.comp, onceService, executeService, isSuccessResult]
  · intro i sp e hi hf
    rw [runAllOnce_details]
    rw [List.getElem?_map, List.getElem?_map, hi]
    simp [onceService, getRecentArticles, hf, executeArticleCheck,
      executeService, detailOf]
  · intro i
    rw [runAllOnce_details, runAllOnce_details]
    rw [List.map_map, List.map_map, map_eraseIdx]

/-- Witness for C6's amended theorem: a single source whose fetch throws is
reported as a success with zero articles. -/
theorem claim6_fetch_failure_swallowed_witness :
    (runAllOnce 3 (([⟨"A", Except.error "boom", fun _ => true⟩] :
      List SourceSpec).map (onceService 0 "2025-10-11" CacheMode.memory false))).details[0]?
      = some ⟨"A", true, 0, 0, none⟩ :=
  (claim6_fetch_failure_swallowed [⟨"A", Except.error "boom", fun _ => true⟩]
    3 0 "2025-10-11" CacheMode.memory false).2.2.1 0
    ⟨"A", Except.error "boom", fun _ => true⟩ "boom" rfl rfl

/-! ## Invariants of the scheduler interleaving -/

/-- The flag discipline of `BaseScheduler`: `isRunning` is set exactly while
one of the two runs executes its body, at most one body executes at a time,
and `isManualRunning` is set exactly while the manual body executes. -/
def SchedInv (st : SchedulerState) : Prop :=
  (st.isRunning = true ↔ (st.sched = SchedPc.running ∨ st.manual = ManualPc.running)) ∧
  ¬(st.sched = SchedPc.running ∧ st.manual = ManualPc.running) ∧
  (st.isManualRunning = true ↔ st.manual = ManualPc.running)

instance (st : SchedulerState) : Decidable (SchedInv st) := by
  unfold SchedInv
  infer_instance

theorem schedInv_initial : SchedInv initialSchedulerState := by
  simp [SchedInv, initialSchedulerState]

theorem schedInv_step (st st' : SchedulerState) (hinv : SchedInv st)
    (hs : SchedStep st st') : SchedInv st' := by
  cases hs with
  | schedTrigger h =>
    revert hinv h
    rcases st with ⟨run, man, s, m⟩
    cases run <;> cases man <;> cases s <;> cases m <;> decide
  | schedFinish h =>
    revert hinv h
    rcases st with ⟨run, man, s, m⟩
    cases run <;> cases man <;> cases s <;> cases m <;> decide
  | manualTrigger h =>
    revert hinv h
    rcases st with ⟨run, man, s, m⟩
    cases run <;> cases man <;> cases s <;> cases m <;> decide
  | manualWake h =>
    revert hinv h
    rcases st with ⟨run, man, s, m⟩
    cases run <;> cases man <;> cases s <;> cases m <;> decide
  | manualFinish h =>
    revert hinv h
    rcases st with ⟨run, man, s, m⟩
    cases run <;> cases man <;> cases s <;> cases m <;> decide

theorem schedReach_inv (st : SchedulerState) (h : SchedReach st) : SchedInv st := by
  induction h with
  | init => exact schedInv_initial
  | step hr hs ih => exact schedInv_step _ _ ih hs

/-- Claim C10: (i) the scheduled and the manual bodies never execute
concurrently; (ii) a manual run triggered while a scheduled run is in flight
enters the wait loop (it is not dropped and not yet running); (iii) from the
wait loop the manual run can only keep waiting or start running — no
transition drops it; (iv) a scheduled run triggered while a manual run is in
flight is skipped outright (only its pc changes, to the skipped state — it is
not queued and nothing else changes); (v) once the in-flight run has cleared
`isRunning`, the waiting manual run's next wake-up starts its body. -/
theorem claim10_mutual_exclusion :
    (∀ st : SchedulerState, SchedReach st →
      ¬(st.sched = SchedPc.running ∧ st.manual = ManualPc.running)) ∧
    (∀ st : SchedulerState, SchedReach st → st.sched = SchedPc.running →
      st.manual = ManualPc.idle →
      (manualEnterStep st).manual = ManualPc.waiting) ∧
    (∀ st st' : SchedulerState, SchedStep st st' → st.manual = ManualPc.waiting →
      st'.manual = ManualPc.waiting ∨ st'.manual = ManualPc.running) ∧
    (∀ st : SchedulerState, SchedReach st → st.manual = ManualPc.running →
      st.sched = SchedPc.idle →
      schedTriggerStep st = { st with sched := SchedPc.skippedManual }) ∧
    (∀ st : SchedulerState, st.manual = ManualPc.waiting → st.isRunning = false →
      (manualEnterStep st).manual = ManualPc.running) := by
  refine ⟨?_, ?_, ?_, ?_, ?_⟩
  · intro st h
    exact (schedReach_inv st h).2.1
  · intro st h hs hm
    have hinv := schedReach_inv st h
    have hrun : st.isRunning = true := hinv.1.mpr (Or.inl hs)
    simp [manualEnterStep, hrun]
  · intro st st' hstep hm
    cases hstep with
    | schedTrigger h =>
      left
      simp only [schedTriggerStep]
      split <;> try split
      all_goals simpa using hm
    | schedFinish h => left; simpa using hm
    | manualTrigger h => rw [h] at hm; cases hm
    | manualWake h =>
      simp only [manualEnterStep]
      split
      · left; rfl
      · right; rfl
    | manualFinish h => rw [h] at hm; cases hm
  · intro st h hm hs
    have hinv := schedReach_inv st h
    have hman : st.isManualRunning = true := hinv.2.2.mpr hm
    simp [schedTriggerStep, hman]
  · intro st hm hrun
    simp [manualEnterStep, hrun]

/-- Witness for C10 at concrete reachable states: with a scheduled run in
flight the manual trigger ends up waiting, and with a manual run in flight a
scheduled trigger is skipped. -/
theorem claim10_mutual_exclusion_witness :
    (manualEnterStep (schedTriggerStep initialSchedulerState)).manual
      = ManualPc.waiting ∧
    schedTriggerStep (manualEnterStep initialSchedulerState)
      = ⟨true, true, SchedPc.skippedManual, ManualPc.running⟩ := by
  constructor
  · exact claim10_mutual_exclusion.2.1 (schedTriggerStep initialSchedulerState)
      (SchedReach.step SchedReach.init (SchedStep.schedTrigger _ rfl)) rfl rfl
  · have h := claim10_mutual_exclusion.2.2.2.1 (manualEnterStep initialSchedulerState)
      (SchedReach.step SchedReach.init (SchedStep.manualTrigger _ rfl)) rfl rfl
    exact h

/-! ## Claims about the relevance scorer -/

/-- Claim C2: an article matching a strong exclusion pattern is rejected with
score 0 and decision `EXCLUDED` before any other gate, in both entry points,
whatever the lenient flag and whatever other keywords the text contains. -/
theorem claim2_exclusion_precedence (cfg : FilterConfig) (a : Article) :
    (hasExclusionContent (filterTitle a) (mainContent a) = true →
      isRelevantContentFull cfg a = .ok ⟨false, Decision.EXCLUDED, 0⟩) ∧
    (hasExclusionContent (filterTitle a) (detailedContent a) = true →
      getDetailedFilterResult cfg a
        = ⟨false, 0, some Decision.EXCLUDED,
           .msg "Explicit exclusion pattern matched"⟩) := by
  constructor
  · intro h
    simp [isRelevantContentFull, h]
  · intro h
    simp [getDetailedFilterResult, h]

/-- Witness for C2: a lenient-source article whose text matches the
`/mobile.*app/i` exclusion pattern while also containing admit-favoring
keywords (react, typescript, conference) is excluded by both entry points. -/
theorem claim2_exclusion_precedence_witness :
    isRelevantContentFull ⟨true⟩
      { title := some "mobile app react typescript conference" }
      = .ok ⟨false, Decision.EXCLUDED, 0⟩ ∧
    getDetailedFilterResult ⟨true⟩
      { title := some "mobile app react typescript conference" }
      = ⟨false, 0, some Decision.EXCLUDED,
         .msg "Explicit exclusion pattern matched"⟩ :=
  ⟨(claim2_exclusion_precedence ⟨true⟩ _).1 (by decide),
   (claim2_exclusion_precedence ⟨true⟩ _).2 (by decide)⟩

/-- Counterexample to C1 as stated: for the lenient-source article titled
`"backend only conference"` (which matches both a backend-only pattern and an
event keyword), `isRelevantContent` rejects but
`getDetailedFilterResult`/`processArticle` admits — so the backend-only gate
does not run before the event gate in both entry points. -/
theorem claim1_counterexample :
    isRelevantContent ⟨true⟩ { title := some "backend only conference" }
      = .ok false ∧
    (getDetailedFilterResult ⟨true⟩
      { title := some "backend only conference" }).isRelevant = true := by
  constructor
  · rfl
  · rfl

/-- Claim C1 as amended: in `isRelevantContent` the backend-only exclusion is
checked before the event gate, so a lenient-source article matching a
backend-only marker is `EXCLUDED` even when event keywords are present; in
`getDetailedFilterResult` the event gate is checked first, so a lenient-source
article containing an event keyword is admitted even when a backend-only
marker is present. -/
theorem claim1_gate_order (a : Article) :
    (hasExclusionContent (filterTitle a) (mainContent a) = false →
      hasBackendOnlyContent (filterTitle a) (mainContent a) = true →
      (isRelevantContentFull ⟨true⟩ a).map
        (fun r => (r.relevant, r.decision)) = .ok (false, Decision.EXCLUDED)) ∧
    (hasExclusionContent (filterTitle a) (detailedContent a) = false →
      hasEventKeyword (filterTitle a ++ " " ++ detailedContent a) = true →
      (getDetailedFilterResult ⟨true⟩ a).isRelevant = true) := by
  constructor
  · intro hex hb
    simp [isRelevantContentFull, hex, hb, Except.map]
  · intro hex hev
    simp [getDetailedFilterResult, hex, hev]

/-- Witness for C1's amended theorem at the article of the counterexample. -/
theorem claim1_gate_order_witness :
    (isRelevantContentFull ⟨true⟩
      { title := some "backend only conference" }).map
        (fun r => (r.relevant, r.decision)) = .ok (false, Decision.EXCLUDED) ∧
    (getDetailedFilterResult ⟨true⟩
      { title := some "backend only conference" }).isRelevant = true :=
  ⟨(claim1_gate_order { title := some "backend only conference" }).1
      (by decide) (by decide),
   (claim1_gate_order { title := some "backend only conference" }).2
      (by decide) (by decide)⟩

set_option maxHeartbeats 1000000 in
/-- Claim C3 fails on the code: on a lenient source, an article whose text
contains a dev keyword but scores below 0.1 reaches
`totalScore = Math.max(totalScore, 0.1)` — an assignment to the `const`
declared at line 173 of `advancedContentFilter.js` — so `isRelevantContent`
throws a `TypeError` instead of returning a boolean.  The article titled
`"docker"` (score 0) is such an input. -/
theorem claim3_lenient_bump_throws :
    isRelevantContentFull ⟨true⟩ { title := some "docker" } = .error () := by
  simp +decide [isRelevantContentFull, filterTitle, mainContent,
    hasExclusionContent, hasBackendOnlyContent, hasEventKeyword, hasAnyKeyword,
    getProjectTechScore, getFrontendTechScore, getAiFrontendScore,
    getTechnicalContextScore, getToolsScore, getDiscouragementPenalty,
    keywordGroupScore, fullTextGroupScore, fullTextGroupPenalty,
    Filter.projectTechPrimary, Filter.projectTechSecondary,
    Filter.webFrontendHigh, Filter.webFrontendMedium, Filter.webFrontendLow,
    Filter.aiFrontendHigh, Filter.aiFrontendMedium, Filter.buildToolsPreferred,
    Filter.buildToolsCommon, Filter.packageManagersPreferred,
    Filter.packageManagersCommon, Filter.technicalIndicators,
    Filter.exclusionPatterns, Filter.backendOnlyPatterns, Filter.eventKeywords,
    Filter.devKeywords, Filter.techKeywordsMain, Filter.discouragedFrameworks,
    Filter.discouragedStateManagement, Filter.discouragedStyling,
    Filter.discouragedBundlers]
  norm_num

set_option maxHeartbeats 1000000 in
/-- Counterexample to C9 as stated: `getDetailedFilterResult` (whose score
`processArticle` exposes verbatim) applies no `Math.max(0, …)` floor, so an
article matching only discouraged-tech keywords — title `"vue"` — is scored
−0.3, a negative exposed score. -/
theorem claim9_detailed_score_negative :
    (getDetailedFilterResult ⟨false⟩ { title := some "vue" }).score < 0 := by
  simp +decide [getDetailedFilterResult, filterTitle, detailedContent,
    hasExclusionContent, hasBackendOnlyContent, hasEventKeyword, hasAnyKeyword,
    getProjectTechScore, getFrontendTechScore, getAiFrontendScore,
    getTechnicalContextScore, getToolsScore, getDiscouragementPenalty,
    keywordGroupScore, fullTextGroupScore, fullTextGroupPenalty,
    Filter.projectTechPrimary, Filter.projectTechSecondary,
    Filter.webFrontendHigh, Filter.webFrontendMedium, Filter.webFrontendLow,
    Filter.aiFrontendHigh, Filter.aiFrontendMedium, Filter.buildToolsPreferred,
    Filter.buildToolsCommon, Filter.packageManagersPreferred,
    Filter.packageManagersCommon, Filter.technicalIndicators,
    Filter.exclusionPatterns, Filter.backendOnlyPatterns, Filter.eventKeywords,
    Filter.devKeywords, Filter.techKeywordsDetailed, Filter.discouragedFrameworks,
    Filter.discouragedStateManagement, Filter.discouragedStyling,
    Filter.discouragedBundlers]
  norm_num

/-! ## Score bound lemmas for C9 -/

theorem le_foldl_of_le_step {α : Type} (g : ℚ → α → ℚ) (h : ∀ x a, x ≤ g x a) :
    ∀ (l : List α) (x : ℚ), x ≤ l.foldl g x
  | [], x => le_refl x
  | a :: t, x => le_trans (h x a) (le_foldl_of_le_step g h t (g x a))

theorem foldl_le_of_step_le {α : Type} (g : ℚ → α → ℚ) (h : ∀ x a, g x a ≤ x) :
    ∀ (l : List α) (x : ℚ), l.foldl g x ≤ x
  | [], x => le_refl x
  | a :: t, x => le_trans (foldl_le_of_step_le g h t (g x a)) (h x a)

theorem keywordGroupScore_le (title content : String) (w tw cw : ℚ)
    (hw1 : 0 ≤ w * tw) (hw2 : 0 ≤ w * cw) (ks : List String) (x : ℚ) :
    x ≤ keywordGroupScore title content w tw cw ks x := by
  apply le_foldl_of_le_step
  intro y k
  dsimp only
  split_ifs <;> linarith

theorem fullTextGroupScore_le (fullText : String) (w : ℚ) (hw : 0 ≤ w)
    (ks : List String) (x : ℚ) : x ≤ fullTextGroupScore fullText w ks x := by
  apply le_foldl_of_le_step
  intro y k
  dsimp only
  split_ifs <;> linarith

theorem fullTextGroupPenalty_le (fullText : String) (w : ℚ) (hw : 0 ≤ w)
    (ks : List String) (x : ℚ) : fullTextGroupPenalty fullText w ks x ≤ x := by
  apply foldl_le_of_step_le
  intro y k
  dsimp only
  split_ifs <;> linarith

theorem getProjectTechScore_bounds (t c : String) :
    0 ≤ getProjectTechScore t c ∧ getProjectTechScore t c ≤ 1 := by
  unfold getProjectTechScore
  have h1 : (0 : ℚ) ≤ keywordGroupScore t c 2.0 3 1 Filter.projectTechPrimary 0 :=
    keywordGroupScore_le t c 2.0 3 1 (by norm_num) (by norm_num) _ 0
  have h2 := keywordGroupScore_le t c 1.5 3 1 (by norm_num) (by norm_num)
    Filter.projectTechSecondary (keywordGroupScore t c 2.0 3 1 Filter.projectTechPrimary 0)
  constructor
  · apply le_min <;> [skip; norm_num]
    have := le_trans h1 h2
    positivity
  · exact le_trans (min_le_right _ _) (by norm_num)

theorem getFrontendTechScore_bounds (t c : String) :
    0 ≤ getFrontendTechScore t c ∧ getFrontendTechScore t c ≤ 1 := by
  unfold getFrontendTechScore
  have h1 : (0 : ℚ) ≤ keywordGroupScore t c 1.0 2 1 Filter.webFrontendHigh 0 :=
    keywordGroupScore_le t c 1.0 2 1 (by norm_num) (by norm_num) _ 0
  have h2 := keywordGroupScore_le t c 0.7 2 1 (by norm_num) (by norm_num)
    Filter.webFrontendMedium (keywordGroupScore t c 1.0 2 1 Filter.webFrontendHigh 0)
  have h3 := keywordGroupScore_le t c 0.4 2 1 (by norm_num) (by norm_num)
    Filter.webFrontendLow (keywordGroupScore t c 0.7 2 1 Filter.webFrontendMedium
      (keywordGroupScore t c 1.0 2 1 Filter.webFrontendHigh 0))
  constructor
  · apply le_min <;> [skip; norm_num]
    have := le_trans (le_trans h1 h2) h3
    positivity
  · exact le_trans (min_le_right _ _) (by norm_num)

theorem getAiFrontendScore_bounds (t c : String) :
    0 ≤ getAiFrontendScore t c ∧ getAiFrontendScore t c ≤ 1 := by
  unfold getAiFrontendScore
  have h1 : (0 : ℚ) ≤ keywordGroupScore t c 1.0 2 1 Filter.aiFrontendHigh 0 :=
    keywordGroupScore_le t c 1.0 2 1 (by norm_num) (by norm_num) _ 0
  have h2 := keywordGroupScore_le t c 0.6 2 1 (by norm_num) (by norm_num)
    Filter.aiFrontendMedium (keywordGroupScore t c 1.0 2 1 Filter.aiFrontendHigh 0)
  constructor
  · apply le_min <;> [skip; norm_num]
    have := le_trans h1 h2
    positivity
  · exact le_trans (min_le_right _ _) (by norm_num)

theorem getTechnicalContextScore_bounds (t c : String) :
    0 ≤ getTechnicalContextScore t c ∧ getTechnicalContextScore t c ≤ 1 := by
  unfold getTechnicalContextScore
  have h1 : (0 : ℚ) ≤ fullTextGroupScore (t ++ " " ++ c) 0.15
      Filter.technicalIndicators 0 :=
    fullTextGroupScore_le _ 0.15 (by norm_num) _ 0
  constructor
  · apply le_min <;> [skip; norm_num]
    split_ifs <;> linarith
  · exact le_trans (min_le_right _ _) (by norm_num)

theorem getToolsScore_bounds (t c : String) :
    0 ≤ getToolsScore t c ∧ getToolsScore t c ≤ 1 := by
  unfold getToolsScore
  have h1 : (0 : ℚ) ≤ fullTextGroupScore (t ++ " " ++ c) 0.8
      Filter.buildToolsPreferred 0 :=
    fullTextGroupScore_le _ 0.8 (by norm_num) _ 0
  have h2 := fullTextGroupScore_le (t ++ " " ++ c) 0.6 (by norm_num)
    Filter.packageManagersPreferred
    (fullTextGroupScore (t ++ " " ++ c) 0.8 Filter.buildToolsPreferred 0)
  have h3 := fullTextGroupScore_le (t ++ " " ++ c) 0.4 (by norm_num)
    Filter.buildToolsCommon
    (fullTextGroupScore (t ++ " " ++ c) 0.6 Filter.packageManagersPreferred
      (fullTextGroupScore (t ++ " " ++ c) 0.8 Filter.buildToolsPreferred 0))
  have h4 := fullTextGroupScore_le (t ++ " " ++ c) 0.3 (by norm_num)
    Filter.packageManagersCommon
    (fullTextGroupScore (t ++ " " ++ c) 0.4 Filter.buildToolsCommon
      (fullTextGroupScore (t ++ " " ++ c) 0.6 Filter.packageManagersPreferred
        (fullTextGroupScore (t ++ " " ++ c) 0.8 Filter.buildToolsPreferred 0)))
  constructor
  · apply le_min <;> [skip; norm_num]
    linarith
  · exact le_trans (min_le_right _ _) (by norm_num)

theorem getDiscouragementPenalty_nonpos (t c : String) :
    getDiscouragementPenalty t c ≤ 0 := by
  unfold getDiscouragementPenalty
  have h1 : fullTextGroupPenalty (t ++ " " ++ c) 0.3
      Filter.discouragedFrameworks 0 ≤ 0 :=
    fullTextGroupPenalty_le _ 0.3 (by norm_num) _ 0
  have h2 := fullTextGroupPenalty_le (t ++ " " ++ c) 0.2 (by norm_num)
    Filter.discouragedStateManagement
    (fullTextGroupPenalty (t ++ " " ++ c) 0.3 Filter.discouragedFrameworks 0)
  have h3 := fullTextGroupPenalty_le (t ++ " " ++ c) 0.2 (by norm_num)
    Filter.discouragedStyling
    (fullTextGroupPenalty (t ++ " " ++ c) 0.2 Filter.discouragedStateManagement
      (fullTextGroupPenalty (t ++ " " ++ c) 0.3 Filter.discouragedFrameworks 0))
  have h4 := fullTextGroupPenalty_le (t ++ " " ++ c) 0.1 (by norm_num)
    Filter.discouragedBundlers
    (fullTextGroupPenalty (t ++ " " ++ c) 0.2 Filter.discouragedStyling
      (fullTextGroupPenalty (t ++ " " ++ c) 0.2 Filter.discouragedStateManagement
        (fullTextGroupPenalty (t ++ " " ++ c) 0.3 Filter.discouragedFrameworks 0)))
  linarith

/-- Claim C9 as amended: every category sub-score lies in [0,1], the
discouraged-tech penalty is ≤ 0, and every score value `isRelevantContent`
reaches an exit with (the total used for its threshold decision included) is
non-negative; the score exposed by `getDetailedFilterResult`/`processArticle`,
however, carries no floor and can be negative (see the counterexample). -/
theorem claim9_score_bounds :
    (∀ t c : String, 0 ≤ getProjectTechScore t c ∧ getProjectTechScore t c ≤ 1) ∧
    (∀ t c : String, 0 ≤ getFrontendTechScore t c ∧ getFrontendTechScore t c ≤ 1) ∧
    (∀ t c : String, 0 ≤ getAiFrontendScore t c ∧ getAiFrontendScore t c ≤ 1) ∧
    (∀ t c : String, 0 ≤ getTechnicalContextScore t c ∧
      getTechnicalContextScore t c ≤ 1) ∧
    (∀ t c : String, 0 ≤ getToolsScore t c ∧ getToolsScore t c ≤ 1) ∧
    (∀ t c : String, getDiscouragementPenalty t c ≤ 0) ∧
    (∀ (cfg : FilterConfig) (a : Article) (r : RelevanceResult),
      isRelevantContentFull cfg a = .ok r → 0 ≤ r.score) := by
  refine ⟨getProjectTechScore_bounds, getFrontendTechScore_bounds,
    getAiFrontendScore_bounds, getTechnicalContextScore_bounds,
    getToolsScore_bounds, getDiscouragementPenalty_nonpos, ?_⟩
  intro cfg a r h
  simp only [isRelevantContentFull] at h
  split at h
  · simp only [Except.ok.injEq] at h
    rw [← h]
  · split at h
    · split at h
      · simp only [Except.ok.injEq] at h
        rw [← h]
        exact le_max_left 0 _
      · split at h
        · simp only [Except.ok.injEq] at h
          rw [← h]
          exact le_max_of_le_right (by norm_num)
        · split at h
          · exact absurd h (by simp)
          · split at h
            · exact absurd h (by simp)
            · simp only [Except.ok.injEq] at h
              rw [← h]
              exact le_max_left 0 _
    · simp only [Except.ok.injEq] at h
      rw [← h]
      exact le_max_left 0 _

/-- Witness for C9's amended theorem: the result `isRelevantContent` produces
for a concrete excluded article has a non-negative score. -/
theorem claim9_score_bounds_witness :
    0 ≤ ((⟨false, Decision.EXCLUDED, 0⟩ : RelevanceResult)).score :=
  claim9_score_bounds.2.2.2.2.2.2 ⟨true⟩
    { title := some "mobile app development" } ⟨false, Decision.EXCLUDED, 0⟩ rfl

end RssNotif
